import Mathlib

/-! Verification of the goldiebot trading bot against its natural-language
specification.  The Python sources are embedded shallowly: pure functions
become Lean functions over `ℚ` (Python floats are binary rationals), stateful
routines become explicit state passing, side-effecting routines return traces
of events, and external collaborators (broker, notifier, report sink) are
modelled as oracles supplied through environment records. -/

namespace GoldieBot

/-- Record stored per ticket by the state manager (the dict literals written by
`strategy._execute_new_trade` and `main.sync_positions_with_state`). -/
structure TradeRec where
  entry_price : ℚ
  signal : String
  entry_type : String
  tp_level : ℚ
  sl_level : ℚ
  deriving DecidableEq, Repr

/-- The persisted mapping of `state_manager.py`.  The Python dict is keyed by
`str(ticket)`; `get_all_managed_trades` converts back with `int`.  Since
`str` is injective on the integer tickets and the JSON round trip preserves
keys, we key directly by the ticket number. -/
abbrev Store := List (Nat × TradeRec)

/-- Keys of the stored mapping (`state.keys()`). -/
def Store.keys (m : Store) : List Nat := m.map Prod.fst

/-- Python `state[str(ticket)] = data`: replace the entry in place when the key
is present (dict update keeps the insertion position), append otherwise. -/
def dictSet : Store → Nat → TradeRec → Store
  | [], k, v => [(k, v)]
  | p :: ps, k, v => if p.1 = k then (k, v) :: ps else p :: dictSet ps k v

/-- Python `str(ticket) in state`. -/
def dictContains (m : Store) (k : Nat) : Bool := m.any (fun p => p.1 = k)

/-- Python `del state[str(ticket)]`: drop the (unique) entry with that key. -/
def dictRemove : Store → Nat → Store
  | [], _ => []
  | p :: ps, k => if p.1 = k then ps else p :: dictRemove ps k

/-- Severity levels of the `logging` calls the embedded routines perform. -/
inductive LogLevel where
  | info
  | warn
  | error
  | critical
  deriving DecidableEq, Repr

/-- Contents of the state file as far as `_load_state` can distinguish them:
missing, empty, JSON-parseable (necessarily a mapping, since `_save_state`
only ever dumps dicts), or raising `json.JSONDecodeError`. -/
inductive FileData where
  | absent
  | empty
  | wellFormed (m : Store)
  | malformed (raw : String)
  deriving DecidableEq, Repr

/-- Filesystem operations a state-file routine can perform, used to state the
atomicity and archiving claims byte-accurately. -/
inductive FsOp where
  | truncateOpen (path : String)
  | writeAll (path : String) (data : List Char)
  | renameOver (src tgt : String)
  deriving DecidableEq, Repr

/-- Test of whether a filesystem operation is a rename. -/
def FsOp.isRenameOver : FsOp → Bool
  | .renameOver _ _ => true
  | _ => false

/-- Constant `STATE_FILE` of state_manager.py. -/
def STATE_FILE : String := "trade_state.json"

/-- Rendering of a stored number inside the JSON dump.  Python prints floats,
we print the rational; the byte-level claims below depend only on the dump
being a concrete nonempty character sequence, never on digit formatting. -/
def qJson (q : ℚ) : String := toString q

/-- Rendering of one record as `json.dump(..., indent=4)` lays it out, `pad`
being the indentation of the surrounding entry. -/
def recJson (r : TradeRec) (pad : String) : String :=
  "\x7b\n" ++
  pad ++ "    \"entry_price\": " ++ qJson r.entry_price ++ ",\n" ++
  pad ++ "    \"signal\": \"" ++ r.signal ++ "\",\n" ++
  pad ++ "    \"entry_type\": \"" ++ r.entry_type ++ "\",\n" ++
  pad ++ "    \"tp_level\": " ++ qJson r.tp_level ++ ",\n" ++
  pad ++ "    \"sl_level\": " ++ qJson r.sl_level ++ "\n" ++
  pad ++ "\x7d"

/-- Serialization performed by `json.dump(state, f, indent=4)` in
`_save_state`. -/
def serializeStore : Store → String
  | [] => "\x7b\x7d"
  | m =>
    "\x7b\n" ++
    String.intercalate ",\n"
      (m.map (fun p => "    \"" ++ toString p.1 ++ "\": " ++ recJson p.2 "    ")) ++
    "\n\x7d"

/-- File-operation trace of `_save_state(state)`: `STATE_FILE.open('w')`
truncates the target file in place and `json.dump` then streams the
serialized bytes into it.  No temporary file and no rename appears. -/
def saveStateTrace (m : Store) : List FsOp :=
  [.truncateOpen STATE_FILE, .writeAll STATE_FILE (serializeStore m).data]

/-- Bytes a reader finds in the state file if the process dies after `k` bytes
of the dump have reached the file: the open-for-write already truncated the
previous content, so only the first `k` bytes of the new dump are present. -/
def contentAtCrash (m : Store) (k : Nat) : List Char := (serializeStore m).data.take k

/-- Message text of the load-failure log (`log.error` in `_load_state`). -/
def loadErrorMsg : String :=
  "Error loading state file. A new one will be created."

/-- Embedding of `_load_state`: result store, log events emitted, and
filesystem mutations performed.  On a malformed file the code logs at error
severity and returns an empty dict; it performs no filesystem operation at
all (in particular it never archives or renames the bad file). -/
def _load_state : FileData → Store × List (LogLevel × String) × List FsOp
  | .absent => ([], [], [])
  | .empty => ([], [], [])
  | .wellFormed m => (m, [], [])
  | .malformed _ => ([], [(.error, loadErrorMsg)], [])

/-- Embedding of `_save_state` at the file level: a completed save leaves the
file holding exactly the dumped mapping. -/
def _save_state (m : Store) : FileData := .wellFormed m

/-- Embedding of `save_trade_state`: load, assign `state[str(ticket)]`,
save. -/
def save_trade_state (fd : FileData) (ticket : Nat) (data : TradeRec) : FileData :=
  _save_state (dictSet (_load_state fd).1 ticket data)

/-- Embedding of `clear_trade_state`: load, and only when the key is present
delete it and save; otherwise nothing is written at all. -/
def clear_trade_state (fd : FileData) (ticket : Nat) : FileData :=
  let state := (_load_state fd).1
  if dictContains state ticket then _save_state (dictRemove state ticket) else fd

/-- Concrete record used by the closed example theorems. -/
def demoRec : TradeRec :=
  { entry_price := 1950, signal := "BUY", entry_type := "Trend Reversal",
    tp_level := 1960, sl_level := 0 }

/-- Concrete one-entry store (previous file content in the crash example). -/
def demoOldStore : Store := [(101, demoRec)]

/-- Concrete two-entry store (content being written in the crash example). -/
def demoStore : Store := [(101, demoRec), (102, demoRec)]

theorem dictSet_dictSet (m : Store) (k : Nat) (v : TradeRec) :
    dictSet (dictSet m k v) k v = dictSet m k v := by
  induction m with
  | nil => simp [dictSet]
  | cons p ps ih =>
    by_cases h : p.1 = k
    · simp [dictSet, h]
    · simp [dictSet, h, ih]

theorem filter_key_eq_nil (m : Store) (k : Nat) (h : k ∉ m.map Prod.fst) :
    m.filter (fun p => p.1 = k) = [] := by
  induction m with
  | nil => rfl
  | cons p ps ih =>
    simp only [List.map_cons, List.mem_cons] at h
    push_neg at h
    rw [List.filter_cons]
    simp only [decide_eq_true_eq]
    rw [if_neg (by exact fun hc => h.1 hc.symm)]
    exact ih h.2

theorem dictSet_filter_eq (m : Store) (k : Nat) (v : TradeRec)
    (h : (m.map Prod.fst).Nodup) :
    (dictSet m k v).filter (fun p => p.1 = k) = [(k, v)] := by
  induction m with
  | nil => simp [dictSet]
  | cons p ps ih =>
    simp only [List.map_cons, List.nodup_cons] at h
    by_cases hk : p.1 = k
    · simp only [dictSet, if_pos hk]
      have hnil := filter_key_eq_nil ps k (by rw [← hk]; exact h.1)
      simp [List.filter_cons, hnil]
    · simp only [dictSet, if_neg hk]
      rw [List.filter_cons]
      simp only [decide_eq_true_eq, if_neg hk]
      exact ih h.2

/-- C9: saving the same ticket/record twice leaves exactly one entry with that
ticket in the state store (the second save overwrites, it does not
duplicate), and removing a ticket that is absent from the store is a no-op
that leaves the stored mapping — indeed the whole file — unchanged. -/
theorem save_twice_once_remove_absent_noop (fd : FileData) (t : Nat) (r : TradeRec)
    (hnodup : (((_load_state fd).1).map Prod.fst).Nodup) :
    save_trade_state (save_trade_state fd t r) t r = save_trade_state fd t r ∧
    ((_load_state (save_trade_state (save_trade_state fd t r) t r)).1.filter
        (fun p => p.1 = t)).length = 1 ∧
    (dictContains (_load_state fd).1 t = false → clear_trade_state fd t = fd) := by
  refine ⟨?_, ?_, ?_⟩
  · simp [save_trade_state, _save_state, _load_state, dictSet_dictSet]
  · have h1 : (_load_state (save_trade_state (save_trade_state fd t r) t r)).1
        = dictSet (_load_state fd).1 t r := by
      simp [save_trade_state, _save_state, _load_state, dictSet_dictSet]
    rw [h1, dictSet_filter_eq _ _ _ hnodup]
    rfl
  · intro h
    simp [clear_trade_state, h]

/-- Closed witness for the C9 theorem at a concrete store. -/
theorem save_twice_once_remove_absent_noop_witness :
    (((_load_state (FileData.wellFormed demoOldStore)).1).map Prod.fst).Nodup ∧
    (save_trade_state (save_trade_state (FileData.wellFormed demoOldStore) 102 demoRec) 102 demoRec
        = save_trade_state (FileData.wellFormed demoOldStore) 102 demoRec ∧
      ((_load_state (save_trade_state
          (save_trade_state (FileData.wellFormed demoOldStore) 102 demoRec) 102 demoRec)).1.filter
          (fun p => p.1 = 102)).length = 1 ∧
      (dictContains (_load_state (FileData.wellFormed demoOldStore)).1 102 = false →
        clear_trade_state (FileData.wellFormed demoOldStore) 102
          = FileData.wellFormed demoOldStore)) :=
  ⟨by decide, save_twice_once_remove_absent_noop (FileData.wellFormed demoOldStore) 102 demoRec
    (by decide)⟩

set_option maxRecDepth 40000 in
/-- C2 (counterexample): the save of `demoStore` over a file previously
holding `demoOldStore`'s dump performs no rename at all, and the crash point
right after the truncating open leaves the file holding neither the complete
previous content nor the complete new content. -/
theorem save_state_not_atomic_cex :
    ((saveStateTrace demoStore).all (fun op => ! op.isRenameOver)) = true ∧
    contentAtCrash demoStore 0 ≠ (serializeStore demoOldStore).data ∧
    contentAtCrash demoStore 0 ≠ (serializeStore demoStore).data := by
  decide

/-- C2 (amended): `_save_state` is an in-place truncating write of the full
dump: its trace is truncate-then-stream on the target itself, with no
temporary file and no rename, and every crash point strictly inside the
write leaves the file holding a proper prefix of the new dump rather than
the complete new content (the truncate already destroyed the previous
content).  In-process readers are serialized by `STATE_LOCK` and so see only
completed dumps; it is crash atomicity that fails. -/
theorem save_state_writes_in_place (m : Store) (k : Nat)
    (hk : k < (serializeStore m).data.length) :
    saveStateTrace m
        = [FsOp.truncateOpen STATE_FILE, FsOp.writeAll STATE_FILE (serializeStore m).data] ∧
    ((saveStateTrace m).all (fun op => ! op.isRenameOver)) = true ∧
    contentAtCrash m k = (serializeStore m).data.take k ∧
    contentAtCrash m k ≠ (serializeStore m).data := by
  refine ⟨rfl, by simp [saveStateTrace, FsOp.isRenameOver], rfl, ?_⟩
  intro hEq
  have hlen := congrArg List.length hEq
  rw [contentAtCrash, List.length_take, Nat.min_eq_left (le_of_lt hk)] at hlen
  omega

set_option maxRecDepth 40000 in
/-- Closed witness for the amended C2 theorem at a concrete store and crash
point. -/
theorem save_state_writes_in_place_witness :
    0 < (serializeStore demoStore).data.length ∧
    (saveStateTrace demoStore
        = [FsOp.truncateOpen STATE_FILE,
           FsOp.writeAll STATE_FILE (serializeStore demoStore).data] ∧
      ((saveStateTrace demoStore).all (fun op => ! op.isRenameOver)) = true ∧
      contentAtCrash demoStore 0 = (serializeStore demoStore).data.take 0 ∧
      contentAtCrash demoStore 0 ≠ (serializeStore demoStore).data) :=
  ⟨by decide, save_state_writes_in_place demoStore 0 (by decide)⟩

/-- C3 (counterexample): on a malformed state file the loader performs no
filesystem operation at all — in particular no timestamped archive of the
bad file is created — and nothing it logs is at critical severity. -/
theorem load_malformed_no_archive_cex :
    (_load_state (FileData.malformed "not json")).2.2 = [] ∧
    ∀ e ∈ (_load_state (FileData.malformed "not json")).2.1, e.1 ≠ LogLevel.critical := by
  decide

/-- C3 (amended): a malformed state file makes `_load_state` log at error
(not critical) severity and return an empty store; the bad file is left in
place untouched (no archive copy under a timestamped name), and a subsequent
`save_trade_state` simply overwrites it, succeeding — so the data loss is
surfaced in the log, never silent, but there is no archived backup. -/
theorem load_malformed_recovers (raw : String) (t : Nat) (r : TradeRec) :
    (_load_state (FileData.malformed raw)).1 = [] ∧
    (_load_state (FileData.malformed raw)).2.1 = [(LogLevel.error, loadErrorMsg)] ∧
    (_load_state (FileData.malformed raw)).2.2 = [] ∧
    save_trade_state (FileData.malformed raw) t r = FileData.wellFormed [(t, r)] :=
  ⟨rfl, rfl, rfl, rfl⟩

/-- Config constant `USE_TRAILING_STOP` of configs.py. -/
def USE_TRAILING_STOP : Bool := true

/-- Config constant `TRAILING_STOP_ATR_MULT` of configs.py. -/
def TRAILING_STOP_ATR_MULT : ℚ := 3/2

/-- Config constant `MAGIC_NUMBER` of configs.py. -/
def MAGIC_NUMBER : Nat := 234000

/-- Config constant `LOT_SIZE` of configs.py. -/
def LOT_SIZE : ℚ := 1/100

/-- Config constant `TRADING_PAIR` of configs.py. -/
def TRADING_PAIR : String := "XAUUSD.d"

/-- Config constant `TREND_LEVELS_LENGTH` of configs.py. -/
def TREND_LEVELS_LENGTH : Nat := 30

/-- Broker position as re-fetched each tick from MT5.  `ptype` is the MT5
position type code: 0 = `POSITION_TYPE_BUY`, 1 = `POSITION_TYPE_SELL`. -/
structure Position where
  ticket : Nat
  ptype : Nat
  price_open : ℚ
  sl : ℚ
  tp : ℚ
  volume : ℚ
  symbol : String
  deriving DecidableEq, Repr

/-- Per-tick inputs of `manage_trailing_stop` coming from outside the routine:
the latest ATR value produced by the external `ta` library over the fetched
candles, the two sides of the current quote, and whether the broker accepts
the modify request. -/
structure TrailEnv where
  current_atr : ℚ
  priceBuy : ℚ
  priceSell : ℚ
  modifyOk : Bool
  deriving DecidableEq, Repr

/-- Modify request (the new stop) that one iteration of the per-position loop
of `manage_trailing_stop` issues, if any (risk_manager.py lines 118-143):
for a BUY the stop trails below a rising price and is sent only when
strictly above the current stop, for a SELL it trails above a falling price
and is sent only when strictly below the current stop. -/
def trailRequest (env : TrailEnv) (pos : Position) : Option ℚ :=
  let trailing_distance := env.current_atr * TRAILING_STOP_ATR_MULT
  if pos.ptype = 0 then
    let current_price := env.priceBuy
    if current_price > pos.price_open then
      let new_sl := current_price - trailing_distance
      if new_sl > pos.sl then some new_sl else none
    else none
  else if pos.ptype = 1 then
    let current_price := env.priceSell
    if current_price < pos.price_open then
      let new_sl := current_price + trailing_distance
      if new_sl < pos.sl then some new_sl else none
    else none
  else none

/-- Embedding of `manage_trailing_stop`: the list of
`modify_sl_tp(ticket, new_sl, pos.tp)` requests issued in one tick (empty
when the feature is disabled in configs.py). -/
def manage_trailing_stop (env : TrailEnv) (positions : List Position) :
    List (Nat × ℚ × ℚ) :=
  if USE_TRAILING_STOP = false then []
  else positions.filterMap
    (fun pos => (trailRequest env pos).map (fun s => (pos.ticket, s, pos.tp)))

/-- Broker-side stop of a position after one tick of the trailing rule: a
request that is issued and accepted installs the new stop, otherwise the
stop stays what it was. -/
def slAfterTick (env : TrailEnv) (pos : Position) : ℚ :=
  match trailRequest env pos with
  | some s => if env.modifyOk then s else pos.sl
  | none => pos.sl

/-- Position as re-fetched on the next tick after one run of the trailing
rule. -/
def stepPos (pos : Position) (env : TrailEnv) : Position :=
  { pos with sl := slAfterTick env pos }

/-- Position after a whole sequence of trailing ticks. -/
def runTicks (pos : Position) (envs : List TrailEnv) : Position :=
  envs.foldl stepPos pos

theorem trailRequest_strict (env : TrailEnv) (pos : Position) (s : ℚ)
    (h : trailRequest env pos = some s) :
    (pos.ptype = 0 → pos.sl < s) ∧ (pos.ptype = 1 → s < pos.sl) := by
  simp only [trailRequest] at h
  refine ⟨fun h0 => ?_, fun h1 => ?_⟩
  · rw [if_pos h0] at h
    split_ifs at h with hp hs
    · rw [← Option.some.inj h]
      exact hs
  · have h0 : ¬ pos.ptype = 0 := by omega
    rw [if_neg h0, if_pos h1] at h
    split_ifs at h with hp hs
    · rw [← Option.some.inj h]
      exact hs

theorem slAfterTick_buy (env : TrailEnv) (pos : Position) (h0 : pos.ptype = 0) :
    pos.sl ≤ slAfterTick env pos := by
  unfold slAfterTick
  cases hreq : trailRequest env pos with
  | none => exact le_refl _
  | some s =>
    have hs := (trailRequest_strict env pos s hreq).1 h0
    by_cases hm : env.modifyOk <;> simp [hm]
    exact le_of_lt hs

theorem slAfterTick_sell (env : TrailEnv) (pos : Position) (h1 : pos.ptype = 1) :
    slAfterTick env pos ≤ pos.sl := by
  unfold slAfterTick
  cases hreq : trailRequest env pos with
  | none => exact le_refl _
  | some s =>
    have hs := (trailRequest_strict env pos s hreq).2 h1
    by_cases hm : env.modifyOk <;> simp [hm]
    exact le_of_lt hs

theorem runTicks_buy (envs : List TrailEnv) (pos : Position) (h0 : pos.ptype = 0) :
    pos.sl ≤ (runTicks pos envs).sl := by
  induction envs generalizing pos with
  | nil => exact le_refl _
  | cons e es ih =>
    have step : pos.sl ≤ (stepPos pos e).sl := slAfterTick_buy e pos h0
    have tail : (stepPos pos e).sl ≤ (runTicks (stepPos pos e) es).sl :=
      ih (stepPos pos e) (by simpa [stepPos] using h0)
    exact le_trans step tail

theorem runTicks_sell (envs : List TrailEnv) (pos : Position) (h1 : pos.ptype = 1) :
    (runTicks pos envs).sl ≤ pos.sl := by
  induction envs generalizing pos with
  | nil => exact le_refl _
  | cons e es ih =>
    have step : (stepPos pos e).sl ≤ pos.sl := slAfterTick_sell e pos h1
    have tail : (runTicks (stepPos pos e) es).sl ≤ (stepPos pos e).sl :=
      ih (stepPos pos e) (by simpa [stepPos] using h1)
    exact le_trans tail step

/-- C1: the trailing-stop routine requests a stop modification only when the
candidate is strictly more favorable than the position's current stop
(strictly higher for a BUY, strictly lower for a SELL); an equal or less
favorable candidate produces no request, and consequently the broker-side
stop never worsens across any sequence of ticks of the trailing rule. -/
theorem trailing_stop_never_loosens (env : TrailEnv) (pos : Position)
    (envs : List TrailEnv) :
    (∀ s, trailRequest env pos = some s →
      (pos.ptype = 0 → pos.sl < s) ∧ (pos.ptype = 1 → s < pos.sl)) ∧
    (pos.ptype = 0 → pos.sl ≤ slAfterTick env pos) ∧
    (pos.ptype = 1 → slAfterTick env pos ≤ pos.sl) ∧
    (pos.ptype = 0 → pos.sl ≤ (runTicks pos envs).sl) ∧
    (pos.ptype = 1 → (runTicks pos envs).sl ≤ pos.sl) :=
  ⟨fun s h => trailRequest_strict env pos s h,
   fun h0 => slAfterTick_buy env pos h0,
   fun h1 => slAfterTick_sell env pos h1,
   fun h0 => runTicks_buy envs pos h0,
   fun h1 => runTicks_sell envs pos h1⟩

/-- Concrete BUY position for the trailing-stop witness. -/
def demoBuyPos : Position :=
  { ticket := 101, ptype := 0, price_open := 100, sl := 90, tp := 120,
    volume := 1/100, symbol := "XAUUSD.d" }

/-- Concrete trailing tick for the witness: ATR 2 gives distance 3, price 105
is in profit, so the candidate stop 102 beats the current stop 90. -/
def demoTrailEnv : TrailEnv :=
  { current_atr := 2, priceBuy := 105, priceSell := 105, modifyOk := true }

/-- Closed witness for the C1 theorem: the request actually fires with a
strictly better stop and the stop after the tick has not worsened. -/
theorem trailing_stop_never_loosens_witness :
    trailRequest demoTrailEnv demoBuyPos = some 102 ∧
    demoBuyPos.sl < 102 ∧
    demoBuyPos.sl ≤ (runTicks demoBuyPos [demoTrailEnv]).sl :=
  ⟨by norm_num [trailRequest, demoTrailEnv, demoBuyPos, TRAILING_STOP_ATR_MULT],
   ((trailing_stop_never_loosens demoTrailEnv demoBuyPos [demoTrailEnv]).1 102
      (by norm_num [trailRequest, demoTrailEnv, demoBuyPos, TRAILING_STOP_ATR_MULT])).1 rfl,
   (trailing_stop_never_loosens demoTrailEnv demoBuyPos [demoTrailEnv]).2.2.2.1 rfl⟩

/-- Price ladder of the exit controller: an "entry" reference and the ordered
target rungs, monotonic away from the reference. -/
structure Ladder where
  entry : ℚ
  targets : List ℚ
  deriving DecidableEq, Repr

/-- Walk along the rungs keeping the preceding rung in `prev` (initially the
entry reference): the first rung strictly more favorable than the current
take-profit is the next target, and the rung just before it is the trigger
level.  `fav a b` reads "a is strictly more favorable than b". -/
def nextTargetFrom (fav : ℚ → ℚ → Bool) (tp prev : ℚ) : List ℚ → Option (ℚ × ℚ)
  | [] => none
  | t :: ts => if fav t tp then some (prev, t) else nextTargetFrom fav tp t ts

/-- Modelled from the spec: `rm.manage_dynamic_exits` is invoked at
src/main.py line 194, but risk_manager.py under src/ does not define it (nor
does configs.py define the `USE_DYNAMIC_EXITS` flag that announces it), so
the trailing take-profit ladder rule is taken from spec section 4.3: let
`next_target` be the smallest rung strictly more favorable than the current
take-profit and `trigger_level` the rung immediately preceding it (the
ladder's entry reference when `next_target` is the first rung); the
take-profit advances to `next_target` exactly when live price has crossed
`trigger_level` in the favorable direction, and stays put otherwise.
`favOf isBuy a b` reads "a is strictly more favorable than b". -/
def favOf (isBuy : Bool) (a b : ℚ) : Bool := if isBuy then b < a else a < b

/-- Body of the spec-modelled ladder: match the trigger/target pair and
advance only on a favorable crossing. -/
def manage_dynamic_exits_step (isBuy : Bool) (lad : Ladder) (tp price : ℚ) : ℚ :=
  match nextTargetFrom (favOf isBuy) tp lad.entry lad.targets with
  | none => tp
  | some (trigger, nxt) => if favOf isBuy price trigger then nxt else tp

/-- The example ladder of the spec (section 8): entry reference 100, rungs
105 and 110, for a long position. -/
def demoLadder : Ladder := { entry := 100, targets := [105, 110] }

/-- C4 (spec-modelled): the exit controller advances the take-profit only
once price has crossed the trigger level in the favorable direction, and
then to exactly the next target; on the spec's example ladder with current
take-profit 100, any price not above the entry reference leaves the target
unchanged, and a price above it advances the target to exactly 105, never
110. -/
theorem ladder_hysteresis (isBuy : Bool) (lad : Ladder) (tp price : ℚ) :
    (manage_dynamic_exits_step isBuy lad tp price ≠ tp →
      ∃ trigger nxt,
        nextTargetFrom (favOf isBuy) tp lad.entry lad.targets = some (trigger, nxt) ∧
        (isBuy = true → trigger < price) ∧
        (isBuy = false → price < trigger) ∧
        manage_dynamic_exits_step isBuy lad tp price = nxt) ∧
    (price ≤ 100 → manage_dynamic_exits_step true demoLadder 100 price = 100) ∧
    (100 < price → manage_dynamic_exits_step true demoLadder 100 price = 105) := by
  refine ⟨?_, ?_, ?_⟩
  · intro hchanged
    unfold manage_dynamic_exits_step at hchanged ⊢
    cases hnt : nextTargetFrom (favOf isBuy) tp lad.entry lad.targets with
    | none =>
      rw [hnt] at hchanged
      exact absurd rfl hchanged
    | some p =>
      obtain ⟨trigger, nxt⟩ := p
      rw [hnt] at hchanged
      by_cases hcross : favOf isBuy price trigger = true
      · refine ⟨trigger, nxt, rfl, ?_, ?_, ?_⟩
        · intro hb
          have hx := hcross
          simp [favOf, hb] at hx
          exact hx
        · intro hb
          have hx := hcross
          simp [favOf, hb] at hx
          exact hx
        · exact if_pos hcross
      · have heq : (if favOf isBuy price trigger = true then nxt else tp) = tp :=
          if_neg hcross
        exact absurd heq hchanged
  · intro hle
    have h105 : ((100:ℚ) < 105) := by norm_num
    simp [manage_dynamic_exits_step, demoLadder, nextTargetFrom, favOf, h105,
      not_lt.mpr hle]
  · intro hgt
    have h105 : ((100:ℚ) < 105) := by norm_num
    simp [manage_dynamic_exits_step, demoLadder, nextTargetFrom, favOf, h105, hgt]

/-- Closed witness for the C4 theorem: on the spec's example ladder a price
below the entry reference leaves the target at 100, and a price just above
it advances the target to exactly 105. -/
theorem ladder_hysteresis_witness :
    manage_dynamic_exits_step true demoLadder 100 99 = 100 ∧
    manage_dynamic_exits_step true demoLadder 100 101 = 105 :=
  ⟨(ladder_hysteresis true demoLadder 100 99).2.1 (by norm_num),
   (ladder_hysteresis true demoLadder 100 101).2.2 (by norm_num)⟩

/-- One OHLC candle row as fetched by `fetch_ohlcv` (the `open` column is
`open_px` here, `open` being a Lean keyword). -/
structure Candle where
  time : Nat
  open_px : ℚ
  high : ℚ
  low : ℚ
  close : ℚ
  deriving DecidableEq, Repr

/-- One side of the Gann levels dict built by `calculate_gann_levels`:
`entry`, `stop_loss`, and the targets `target_1 .. target_8` in order. -/
structure GannSide where
  entry : ℚ
  stop_loss : ℚ
  targets : List ℚ
  deriving DecidableEq, Repr

/-- Dict access `side['target_1']` / `side.get('target_1', 0.0)`: the dict
always holds eight targets, so the head is `target_1`. -/
def GannSide.target_1 (g : GannSide) : ℚ := g.targets.headD 0

/-- Possible results of `calculate_gann_levels`: the populated dict, the empty
dict returned on insufficient data or a non-positive reference price, or the
`ValueError` raised on an invalid calculation basis. -/
inductive GannResult where
  | levels (buy_side sell_side : GannSide)
  | emptyDict
  | valueError
  deriving DecidableEq, Repr

/-- The `gann_fractions` list of indicators.py. -/
def gann_fractions : List ℚ := [1/16, 1/8, 1/4, 1/2, 3/4, 1, 5/4, 3/2, 7/4, 2]

/-- Embedding of `calculate_gann_levels` (indicators.py lines 131-185).
`msqrt` stands for the numeric primitive `math.sqrt`, which has no exact
rational counterpart; every claim settled below is independent of its
values.  Rows are oldest to newest, so `iloc[-1]` is the last row and
`iloc[-2]` the one before it. -/
def calculate_gann_levels (msqrt : ℚ → ℚ) (daily_data : List Candle)
    (calculation_basis : String) : GannResult :=
  if daily_data.length < 2 then .emptyDict
  else
    match daily_data.reverse with
    | today :: prev_day :: _ =>
      let ref : Option ℚ :=
        if calculation_basis = "Todays Open" then some today.open_px
        else if calculation_basis = "Previous Days High" then some prev_day.high
        else if calculation_basis = "Previous Days Low" then some prev_day.low
        else if calculation_basis = "Previous Days Close" then some prev_day.close
        else none
      match ref with
      | none => .valueError
      | some reference_price =>
        if reference_price ≤ 0 then .emptyDict
        else
          let sqrt_ref := msqrt reference_price
          .levels
            { entry := (sqrt_ref + 1/8)^2, stop_loss := (sqrt_ref - 1/16)^2,
              targets := (gann_fractions.drop 2).map (fun f => (sqrt_ref + f)^2) }
            { entry := (sqrt_ref - 1/8)^2, stop_loss := (sqrt_ref + 1/16)^2,
              targets := (gann_fractions.drop 2).map (fun f => (sqrt_ref - f)^2) }
    | _ => .emptyDict

/-- Rolling window of width `length` ending at row `i`
(`rolling(window=length, min_periods=1)`): the values at rows
`i-length+1 .. i`, truncated at the start of the column. -/
def rollWindow (length : Nat) (xs : List ℚ) (i : Nat) : List ℚ :=
  (xs.take (i + 1)).drop (i + 1 - length)

/-- Rolling maximum column `h` of `calculate_trend_levels`. -/
def rollMax (length : Nat) (xs : List ℚ) (i : Nat) : ℚ :=
  match rollWindow length xs i with
  | [] => 0
  | y :: ys => ys.foldl max y

/-- Rolling minimum column `l` of `calculate_trend_levels`. -/
def rollMin (length : Nat) (xs : List ℚ) (i : Nat) : ℚ :=
  match rollWindow length xs i with
  | [] => 0
  | y :: ys => ys.foldl min y

/-- Stateful `trend` recurrence of `calculate_trend_levels` (true = uptrend):
a row making a new rolling high turns the trend up, a new rolling low turns
it down, anything else carries the previous trend; row 0 keeps the
`np.zeros` initial value false. -/
def trendAt (length : Nat) (highs lows : List ℚ) : Nat → Bool
  | 0 => false
  | i + 1 =>
    if rollMax length highs (i + 1) = highs.getD (i + 1) 0 then true
    else if rollMin length lows (i + 1) = lows.getD (i + 1) 0 then false
    else trendAt length highs lows i

/-- Signal column of `calculate_trend_levels`: BUY or SELL exactly on the row
where the trend flips; row 0 has no previous trend (`shift(1)` yields NaN,
and NaN compares false in the `np.where`), hence HOLD. -/
def signalAt (length : Nat) (highs lows : List ℚ) (i : Nat) : String :=
  match i with
  | 0 => "HOLD"
  | j + 1 =>
    if trendAt length highs lows (j + 1) && ! trendAt length highs lows j then "BUY"
    else if ! trendAt length highs lows (j + 1) && trendAt length highs lows j then "SELL"
    else "HOLD"

/-- Events `TradingStrategy` emits towards the broker adapter, the state
store and the notifier, in program order. -/
inductive StratEv where
  | closeTrade (ticket : Nat) (comment : String)
  | sleepSecs (secs : ℚ)
  | openTrade (order_type : Nat) (symbol : String) (volume price sl tp : ℚ)
      (comment : String)
  | saveState (ticket : Nat) (rec : TradeRec)
  | alertOpened (ticket : Nat)
  | alertRejected
  | raisedValueError
  deriving DecidableEq, Repr

/-- Test of whether a strategy event is an order-open request. -/
def StratEv.isOpenEv : StratEv → Bool
  | .openTrade _ _ _ _ _ _ _ => true
  | _ => false

/-- External inputs of one `check_and_execute` call: the two candle fetches
(`none` models both a `None` return and an empty frame), the current-quote
oracle per side (0.0 = unavailable), and the broker's response to an order
(the new position ticket, or `none` for a rejection). -/
structure StratEnv where
  df5m : Option (List Candle)
  dfDaily : Option (List Candle)
  priceBuy : ℚ
  priceSell : ℚ
  openResult : Option Nat
  deriving DecidableEq, Repr

/-- Embedding of `TradingStrategy._execute_new_trade` (strategy.py lines
62-123) as the list of events it emits.  `basis` is
`config.GANN_CALCULATION_BASIS`, which configs.py under src/ does not
define; the function is faithful to strategy.py for every basis value.  A
`ValueError` escaping the Gann computation is recorded as a raise event and
ends the call. -/
def _execute_new_trade (msqrt : ℚ → ℚ) (basis : String) (env : StratEnv)
    (signal : String) : List StratEv :=
  match env.dfDaily with
  | none => []
  | some df_daily =>
    match calculate_gann_levels msqrt df_daily basis with
    | .valueError => [.raisedValueError]
    | .emptyDict => []
    | .levels buy_side sell_side =>
      let order_type := if signal = "BUY" then 0 else 1
      let price := if signal = "BUY" then env.priceBuy else env.priceSell
      if price = 0 then []
      else
        let take_profit :=
          if signal = "BUY" then buy_side.target_1 else sell_side.target_1
        [.openTrade order_type TRADING_PAIR LOT_SIZE price 0 take_profit
            (signal ++ " by Trend Reversal")] ++
        match env.openResult with
        | some ticket_id =>
          [.saveState ticket_id
            { entry_price := price, signal := signal,
              entry_type := "Trend Reversal", tp_level := take_profit,
              sl_level := 0 },
           .alertOpened ticket_id]
        | none => [.alertRejected]

/-- Embedding of `TradingStrategy.check_and_execute` (strategy.py lines
23-60): the signal is read off row `iloc[-2]` of the trend-levels output —
the caller (main.py line 187) guarantees at least two rows — and dispatched
exactly as in the source.  `delay` is `config.REVERSAL_DELAY_SECONDS`, which
configs.py under src/ does not define; the spec calls it the configured
fixed safety delay, and the function is faithful for every value. -/
def check_and_execute (msqrt : ℚ → ℚ) (basis : String) (delay : ℚ)
    (env : StratEnv) (open_positions : List Position) : List StratEv :=
  match env.df5m with
  | none => []
  | some df =>
    let signal := signalAt TREND_LEVELS_LENGTH (df.map Candle.high)
        (df.map Candle.low) (df.length - 2)
    match open_positions with
    | [] =>
      if signal = "BUY" ∨ signal = "SELL" then
        _execute_new_trade msqrt basis env signal
      else []
    | current_position :: _ =>
      if current_position.ptype = 0 ∧ signal = "SELL" then
        [.closeTrade current_position.ticket "Reversal to SELL",
         .sleepSecs delay] ++ _execute_new_trade msqrt basis env "SELL"
      else if ¬ current_position.ptype = 0 ∧ signal = "BUY" then
        [.closeTrade current_position.ticket "Reversal to BUY",
         .sleepSecs delay] ++ _execute_new_trade msqrt basis env "BUY"
      else []

/-- Take-profit a reversal entry submits: the first Gann target of the traded
side (0 when the levels are unavailable, in which case no order is sent at
all). -/
def gannTp (msqrt : ℚ → ℚ) (basis : String) (env : StratEnv) (signal : String) : ℚ :=
  match env.dfDaily with
  | none => 0
  | some df_daily =>
    match calculate_gann_levels msqrt df_daily basis with
    | .levels buy_side sell_side =>
      if signal = "BUY" then buy_side.target_1 else sell_side.target_1
    | _ => 0

/-- C10: every broker order `_execute_new_trade` submits carries stop-loss
0.0 (no stop-loss at all) and the Gann first target of the traded side as
take-profit, and every state record it persists has `sl_level` 0.0,
`entry_type` "Trend Reversal" and `tp_level` equal to that same target. -/
theorem reversal_entry_no_stop (msqrt : ℚ → ℚ) (basis : String) (env : StratEnv)
    (signal : String) (ev : StratEv)
    (hev : ev ∈ _execute_new_trade msqrt basis env signal) :
    (StratEv.isOpenEv ev = true →
      ∃ ot price c,
        ev = .openTrade ot TRADING_PAIR LOT_SIZE price 0
          (gannTp msqrt basis env signal) c) ∧
    (∀ t rec, ev = .saveState t rec →
      rec.sl_level = 0 ∧ rec.entry_type = "Trend Reversal" ∧
      rec.tp_level = gannTp msqrt basis env signal) := by
  cases hdf : env.dfDaily with
  | none =>
    simp only [_execute_new_trade, hdf] at hev
    simp at hev
  | some df_daily =>
    simp only [_execute_new_trade, hdf] at hev
    simp only [gannTp, hdf]
    cases hg : calculate_gann_levels msqrt df_daily basis with
    | valueError =>
      simp only [hg] at hev
      simp at hev
      subst hev
      exact ⟨fun h => by simp [StratEv.isOpenEv] at h, fun t rec h => by simp at h⟩
    | emptyDict =>
      simp only [hg] at hev
      simp at hev
    | levels buy_side sell_side =>
      simp only [hg] at hev ⊢
      by_cases hp : (if signal = "BUY" then env.priceBuy else env.priceSell) = 0
      · rw [if_pos hp] at hev
        simp at hev
      · rw [if_neg hp] at hev
        cases hor : env.openResult with
        | some ticket_id =>
          rw [hor] at hev
          simp only [List.cons_append, List.nil_append, List.mem_cons,
            List.not_mem_nil, or_false] at hev
          rcases hev with rfl | rfl | rfl
          · exact ⟨fun _ => ⟨_, _, _, rfl⟩, fun t rec h => by simp at h⟩
          · refine ⟨fun h => by simp [StratEv.isOpenEv] at h, fun t rec h => ?_⟩
            obtain ⟨-, hrec⟩ := StratEv.saveState.inj h
            subst hrec
            exact ⟨rfl, rfl, rfl⟩
          · exact ⟨fun h => by simp [StratEv.isOpenEv] at h, fun t rec h => by simp at h⟩
        | none =>
          rw [hor] at hev
          simp only [List.cons_append, List.nil_append, List.mem_cons,
            List.not_mem_nil, or_false] at hev
          rcases hev with rfl | rfl
          · exact ⟨fun _ => ⟨_, _, _, rfl⟩, fun t rec h => by simp at h⟩
          · exact ⟨fun h => by simp [StratEv.isOpenEv] at h, fun t rec h => by simp at h⟩

/-- C8: whenever the open position faces the opposite signal (BUY position
with SELL signal, or SELL position with BUY signal), the event trace of
`check_and_execute` begins with the close request for that position,
immediately followed by the fixed safety delay, and neither of those two
leading events is an open request — so any open request the reopen emits is
observed strictly after the close, with the configured delay between
them. -/
theorem reversal_close_before_open (msqrt : ℚ → ℚ) (basis : String) (delay : ℚ)
    (env : StratEnv) (pos : Position) (rest : List Position) (df : List Candle)
    (hdf : env.df5m = some df)
    (hsig :
      (pos.ptype = 0 ∧ signalAt TREND_LEVELS_LENGTH (df.map Candle.high)
          (df.map Candle.low) (df.length - 2) = "SELL") ∨
      (¬ pos.ptype = 0 ∧ signalAt TREND_LEVELS_LENGTH (df.map Candle.high)
          (df.map Candle.low) (df.length - 2) = "BUY")) :
    ∃ comment tail,
      check_and_execute msqrt basis delay env (pos :: rest)
          = .closeTrade pos.ticket comment :: .sleepSecs delay :: tail ∧
      StratEv.isOpenEv (.closeTrade pos.ticket comment) = false ∧
      StratEv.isOpenEv (.sleepSecs delay) = false := by
  rcases hsig with ⟨h0, hs⟩ | ⟨h0, hs⟩
  · refine ⟨"Reversal to SELL", _execute_new_trade msqrt basis env "SELL", ?_, rfl, rfl⟩
    simp [check_and_execute, hdf, hs, h0]
  · refine ⟨"Reversal to BUY", _execute_new_trade msqrt basis env "BUY", ?_, rfl, rfl⟩
    simp [check_and_execute, hdf, hs, h0]

/-- Stand-in for `math.sqrt` in the closed examples below: the only reference
price they use is 4, whose floating-point square root is exactly 2. -/
def msqrtDemo : ℚ → ℚ := fun _ => 2

/-- Five-minute candles for the strategy witnesses: row 1 makes a new rolling
high (trend turns up), row 2 makes a new rolling low (trend turns down), so
row 2 — which is `iloc[-2]` of this 4-row frame — carries a SELL signal. -/
def demoDf5m : List Candle :=
  [⟨0, 1, 1, 0, 1⟩, ⟨1, 4, 5, 1, 4⟩, ⟨2, 2, 2, -1, 1⟩, ⟨3, 1, 2, 0, 1⟩]

/-- Daily candles for the strategy witnesses: the previous day's close — the
Gann reference under basis "Previous Days Close" — is 4. -/
def demoDaily : List Candle := [⟨0, 4, 5, 3, 4⟩, ⟨1, 4, 5, 3, 4⟩]

/-- Environment for the strategy witnesses: both fetches succeed, the quote
is available, and the broker accepts the order assigning ticket 555. -/
def demoStratEnv : StratEnv :=
  { df5m := some demoDf5m, dfDaily := some demoDaily, priceBuy := 1990,
    priceSell := 1990, openResult := some 555 }

/-- Closed witness for the C8 theorem: a BUY position meeting the SELL signal
of `demoDf5m` produces close-then-delay at the head of the trace. -/
theorem reversal_close_before_open_witness :
    ∃ comment tail,
      check_and_execute msqrtDemo "Previous Days Close" 5 demoStratEnv
          (demoBuyPos :: [])
          = .closeTrade demoBuyPos.ticket comment :: .sleepSecs 5 :: tail ∧
      StratEv.isOpenEv (.closeTrade demoBuyPos.ticket comment) = false ∧
      StratEv.isOpenEv (.sleepSecs 5) = false :=
  reversal_close_before_open msqrtDemo "Previous Days Close" 5 demoStratEnv
    demoBuyPos [] demoDf5m rfl (Or.inl ⟨rfl, by decide⟩)

/-- Closed witness for the C10 theorem: the order actually submitted in the
demo environment has stop-loss 0 and the Gann first sell target as
take-profit. -/
theorem reversal_entry_no_stop_witness :
    StratEv.openTrade 1 TRADING_PAIR LOT_SIZE 1990 0
        (gannTp msqrtDemo "Previous Days Close" demoStratEnv "SELL")
        "SELL by Trend Reversal"
      ∈ _execute_new_trade msqrtDemo "Previous Days Close" demoStratEnv "SELL" ∧
    ∃ ot price c,
      StratEv.openTrade 1 TRADING_PAIR LOT_SIZE 1990 0
          (gannTp msqrtDemo "Previous Days Close" demoStratEnv "SELL")
          "SELL by Trend Reversal"
        = StratEv.openTrade ot TRADING_PAIR LOT_SIZE price 0
            (gannTp msqrtDemo "Previous Days Close" demoStratEnv "SELL") c := by
  have hmem : StratEv.openTrade 1 TRADING_PAIR LOT_SIZE 1990 0
      (gannTp msqrtDemo "Previous Days Close" demoStratEnv "SELL")
      "SELL by Trend Reversal"
      ∈ _execute_new_trade msqrtDemo "Previous Days Close" demoStratEnv "SELL" := by
    have h40 : ¬((4:ℚ) ≤ 0) := by norm_num
    simp [_execute_new_trade, gannTp, calculate_gann_levels, demoStratEnv,
      demoDaily, GannSide.target_1, gann_fractions, msqrtDemo, h40]
  exact ⟨hmem,
    (reversal_entry_no_stop msqrtDemo "Previous Days Close" demoStratEnv "SELL" _
      hmem).1 rfl⟩

/-- One row of the deals frame `history_deals_get(position=ticket)` returns;
`entry` is the MT5 deal-entry code, 0 = DEAL_ENTRY_IN, 1 = DEAL_ENTRY_OUT. -/
structure Deal where
  entry : Nat
  time : Nat
  symbol : String
  volume : ℚ
  price : ℚ
  profit : ℚ
  deriving DecidableEq, Repr

/-- Acceptance test of one fetch attempt (main.py line 108): a frame came
back, it is nonempty, and both an entry deal and an exit deal appear in it. -/
def acceptDeals : Option (List Deal) → Option (List Deal)
  | none => none
  | some ds =>
    if ds.isEmpty then none
    else if ds.any (fun d => d.entry = 0) && ds.any (fun d => d.entry = 1) then some ds
    else none

/-- First of the five fetch attempts that yields usable history, together
with its index (the retry loop of main.py lines 101-112). -/
def firstValidAttempt (fetch : Nat → Option (List Deal)) : Option (Nat × List Deal) :=
  (List.range 5).findSome? (fun i => (acceptDeals (fetch i)).map (fun ds => (i, ds)))

/-- Events `check_for_closed_trades` emits while finalizing closed tickets. -/
inductive ClosedEv where
  | fetchHistory (ticket attempt : Nat)
  | sleepRetry
  | warnNoHistory (ticket : Nat)
  | logTrade (ticket : Nat) (direction entry_type : String)
      (entry_price exit_price profit : ℚ)
  | notifyWin (ticket : Nat) (profit : ℚ)
  | notifyLoss (ticket : Nat) (profit : ℚ)
  | clearState (ticket : Nat)
  | procErrorAlert (ticket : Nat)
  deriving DecidableEq, Repr

/-- Test of whether a closure event is a deal-history query. -/
def ClosedEv.isFetch : ClosedEv → Bool
  | .fetchHistory _ _ => true
  | _ => false

/-- Step of the per-ticket `try` block at which an unexpected exception is
raised (caught by the per-ticket handler of main.py lines 160-167). -/
inductive CloseRaise where
  | duringLog
  | duringNotify
  | duringClear
  deriving DecidableEq, Repr

/-- Per-ticket external behavior during closure processing: the deal-history
response per attempt index, and the raise point of the `try` block, if
any. -/
structure CloseTicketEnv where
  fetch : Nat → Option (List Deal)
  raiseAt : Option CloseRaise

/-- Embedding of `get_trade_state`: the stored record for a ticket, if any. -/
def get_trade_state (fd : FileData) (ticket : Nat) : Option TradeRec :=
  ((_load_state fd).1.find? (fun p => p.1 = ticket)).map Prod.snd

/-- Fetch-and-sleep event prefix of one ticket's retry loop: a 0.2s sleep
follows every unaccepted attempt, and the loop breaks right after the first
accepted one, after at most 5 queries. -/
def attemptEvents (t : Nat) (env : CloseTicketEnv) : List ClosedEv :=
  match firstValidAttempt env.fetch with
  | some (i, _) =>
    ((List.range i).map (fun j => [ClosedEv.fetchHistory t j, .sleepRetry])).flatten ++
      [ClosedEv.fetchHistory t i]
  | none => ((List.range 5).map (fun j => [ClosedEv.fetchHistory t j, .sleepRetry])).flatten

/-- Tail of the per-ticket `try` block once the entry and exit deals are in
hand (main.py lines 118-159): build and log the record (profit from the exit
deal), notify win or loss, clear the state — in that order — with the raise
oracle cutting the sequence at the point where an unexpected exception
occurs, in which case the handler alerts and the state is left untouched. -/
def finalizeTicket (fd : FileData) (t : Nat) (raiseAt : Option CloseRaise)
    (entry_deal exit_deal : Deal) : List ClosedEv × FileData :=
  let trade_state := get_trade_state fd t
  let direction := (trade_state.map TradeRec.signal).getD "N/A"
  let entry_type := (trade_state.map TradeRec.entry_type).getD "Unknown"
  let profit := exit_deal.profit
  let evLog := ClosedEv.logTrade t direction entry_type entry_deal.price
      exit_deal.price profit
  let evNotify := if 0 ≤ profit then ClosedEv.notifyWin t profit
      else ClosedEv.notifyLoss t profit
  match raiseAt with
  | some .duringLog => ([.procErrorAlert t], fd)
  | some .duringNotify => ([evLog, .procErrorAlert t], fd)
  | some .duringClear => ([evLog, evNotify, .procErrorAlert t], fd)
  | none => ([evLog, evNotify, .clearState t], clear_trade_state fd t)

/-- Selection of the entry and exit rows (`iloc[0]` of the filtered frames,
main.py lines 120-121); a frame unexpectedly missing either row raises
inside the `try` and is caught by the per-ticket handler. -/
def processWithDeals (fd : FileData) (t : Nat) (raiseAt : Option CloseRaise)
    (ds : List Deal) : List ClosedEv × FileData :=
  match ds.find? (fun d => d.entry = 0), ds.find? (fun d => d.entry = 1) with
  | some entry_deal, some exit_deal => finalizeTicket fd t raiseAt entry_deal exit_deal
  | _, _ => ([.procErrorAlert t], fd)

/-- Per-ticket body of `check_for_closed_trades` (main.py lines 98-167):
events emitted and file state afterwards.  With no usable history after all
5 attempts the ticket is skipped with a warning and its state entry kept. -/
def processClosedTicket (fd : FileData) (t : Nat) (env : CloseTicketEnv) :
    List ClosedEv × FileData :=
  let pre := attemptEvents t env
  match firstValidAttempt env.fetch with
  | none => (pre ++ [.warnNoHistory t], fd)
  | some (_, ds) =>
    let r := processWithDeals fd t env.raiseAt ds
    (pre ++ r.1, r.2)

/-- Embedding of `check_for_closed_trades` (main.py lines 83-167): every
managed ticket missing from the broker's open set is processed in order,
threading the file state; the per-ticket handler makes the iterations
independent. -/
def check_for_closed_trades (fd : FileData) (openTickets : List Nat)
    (envOf : Nat → CloseTicketEnv) : List ClosedEv × FileData :=
  let managed := Store.keys (_load_state fd).1
  let closed := managed.filter (fun t => decide (t ∉ openTickets))
  closed.foldl (fun acc t =>
    let r := processClosedTicket acc.2 t (envOf t)
    (acc.1 ++ r.1, r.2)) ([], fd)

theorem firstValidAttempt_lt (fetch : Nat → Option (List Deal)) (i : Nat)
    (ds : List Deal) (h : firstValidAttempt fetch = some (i, ds)) :
    i < 5 ∧ acceptDeals (fetch i) = some ds := by
  unfold firstValidAttempt at h
  obtain ⟨a, ha, hfa⟩ := List.exists_of_findSome?_eq_some h
  cases hacc : acceptDeals (fetch a) with
  | none =>
    rw [hacc] at hfa
    exact absurd hfa (by simp)
  | some ds2 =>
    rw [hacc] at hfa
    simp at hfa
    obtain ⟨hai, hds⟩ := hfa
    subst hai
    subst hds
    exact ⟨List.mem_range.mp ha, hacc⟩

theorem countP_fetch_pairs (t n : Nat) :
    (((List.range n).map
        (fun j => [ClosedEv.fetchHistory t j, ClosedEv.sleepRetry])).flatten).countP
      ClosedEv.isFetch = n := by
  induction n with
  | zero => rfl
  | succ n ih =>
    rw [List.range_succ, List.map_append, List.flatten_append, List.countP_append, ih]
    rfl

theorem countP_attemptEvents (t : Nat) (env : CloseTicketEnv) :
    (attemptEvents t env).countP ClosedEv.isFetch ≤ 5 := by
  unfold attemptEvents
  cases hfv : firstValidAttempt env.fetch with
  | none =>
    rw [countP_fetch_pairs]
  | some p =>
    obtain ⟨i, ds⟩ := p
    have hi := (firstValidAttempt_lt env.fetch i ds hfv).1
    rw [List.countP_append, countP_fetch_pairs]
    have h1 : List.countP ClosedEv.isFetch [ClosedEv.fetchHistory t i] = 1 := rfl
    rw [h1]
    omega

theorem clear_not_mem_attemptEvents (t t2 : Nat) (env : CloseTicketEnv) :
    ClosedEv.clearState t2 ∉ attemptEvents t env := by
  unfold attemptEvents
  cases hfv : firstValidAttempt env.fetch with
  | none => simp
  | some p =>
    obtain ⟨i, ds⟩ := p
    simp

/-- C5: for every closed ticket the routine queries deal history at most 5
times, sleeping between attempts; it removes the ticket's state entry only
when usable history (an entry and an exit deal) was obtained, the trade
record was emitted with the exit deal's profit, and the win/loss
notification was sent — the clear being the final step; whenever no clear
happens (in particular when all 5 attempts fail, which only produces a
warning), the file state is left untouched so the next tick retries. -/
theorem closure_retry_and_removal (fd : FileData) (t : Nat) (env : CloseTicketEnv) :
    (processClosedTicket fd t env).1.countP ClosedEv.isFetch ≤ 5 ∧
    (firstValidAttempt env.fetch = none →
      processClosedTicket fd t env
        = (attemptEvents t env ++ [ClosedEv.warnNoHistory t], fd)) ∧
    (ClosedEv.clearState t ∈ (processClosedTicket fd t env).1 →
      ∃ i ds entry_deal exit_deal,
        firstValidAttempt env.fetch = some (i, ds) ∧
        ds.find? (fun d => d.entry = 0) = some entry_deal ∧
        ds.find? (fun d => d.entry = 1) = some exit_deal ∧
        env.raiseAt = none ∧
        processClosedTicket fd t env
          = (attemptEvents t env ++
              [ClosedEv.logTrade t
                  (((get_trade_state fd t).map TradeRec.signal).getD "N/A")
                  (((get_trade_state fd t).map TradeRec.entry_type).getD "Unknown")
                  entry_deal.price exit_deal.price exit_deal.profit,
               if 0 ≤ exit_deal.profit then ClosedEv.notifyWin t exit_deal.profit
                 else ClosedEv.notifyLoss t exit_deal.profit,
               ClosedEv.clearState t],
             clear_trade_state fd t)) ∧
    (ClosedEv.clearState t ∉ (processClosedTicket fd t env).1 →
      (processClosedTicket fd t env).2 = fd) := by
  have hclear := clear_not_mem_attemptEvents t t env
  have hcount : ∀ suffix : List ClosedEv,
      suffix.countP ClosedEv.isFetch = 0 →
      (attemptEvents t env ++ suffix).countP ClosedEv.isFetch ≤ 5 := by
    intro suffix hs
    rw [List.countP_append, hs]
    have := countP_attemptEvents t env
    omega
  cases hfv : firstValidAttempt env.fetch with
  | none =>
    have heq : processClosedTicket fd t env
        = (attemptEvents t env ++ [ClosedEv.warnNoHistory t], fd) := by
      simp only [processClosedTicket, hfv]
    refine ⟨?_, fun _ => heq, fun hmem => ?_, fun _ => by rw [heq]⟩
    · rw [heq]
      exact hcount _ rfl
    · rw [heq] at hmem
      rcases List.mem_append.mp hmem with h | h
      · exact absurd h hclear
      · simp at h
  | some p =>
    obtain ⟨i, ds⟩ := p
    cases hf0 : ds.find? (fun d => d.entry = 0) with
    | none =>
      have heq : processClosedTicket fd t env
          = (attemptEvents t env ++ [ClosedEv.procErrorAlert t], fd) := by
        simp only [processClosedTicket, hfv, processWithDeals, hf0]
      refine ⟨?_, fun h => absurd h (by simp), fun hmem => ?_, fun _ => by rw [heq]⟩
      · rw [heq]
        exact hcount _ rfl
      · rw [heq] at hmem
        rcases List.mem_append.mp hmem with h | h
        · exact absurd h hclear
        · simp at h
    | some entry_deal =>
      cases hf1 : ds.find? (fun d => d.entry = 1) with
      | none =>
        have heq : processClosedTicket fd t env
            = (attemptEvents t env ++ [ClosedEv.procErrorAlert t], fd) := by
          simp only [processClosedTicket, hfv, processWithDeals, hf0, hf1]
        refine ⟨?_, fun h => absurd h (by simp), fun hmem => ?_, fun _ => by rw [heq]⟩
        · rw [heq]
          exact hcount _ rfl
        · rw [heq] at hmem
          rcases List.mem_append.mp hmem with h | h
          · exact absurd h hclear
          · simp at h
      | some exit_deal =>
        cases hra : env.raiseAt with
        | some r =>
          have heq : ∃ suffix : List ClosedEv,
              processClosedTicket fd t env = (attemptEvents t env ++ suffix, fd) ∧
              ClosedEv.clearState t ∉ suffix ∧
              suffix.countP ClosedEv.isFetch = 0 := by
            cases r with
            | duringLog =>
              refine ⟨[ClosedEv.procErrorAlert t], ?_, by simp, rfl⟩
              simp only [processClosedTicket, hfv, processWithDeals, hf0, hf1,
                finalizeTicket, hra]
            | duringNotify =>
              refine ⟨[ClosedEv.logTrade t
                  (((get_trade_state fd t).map TradeRec.signal).getD "N/A")
                  (((get_trade_state fd t).map TradeRec.entry_type).getD "Unknown")
                  entry_deal.price exit_deal.price exit_deal.profit,
                ClosedEv.procErrorAlert t], ?_, by simp, rfl⟩
              simp only [processClosedTicket, hfv, processWithDeals, hf0, hf1,
                finalizeTicket, hra]
            | duringClear =>
              by_cases hp : (0:ℚ) ≤ exit_deal.profit
              · refine ⟨[ClosedEv.logTrade t
                    (((get_trade_state fd t).map TradeRec.signal).getD "N/A")
                    (((get_trade_state fd t).map TradeRec.entry_type).getD "Unknown")
                    entry_deal.price exit_deal.price exit_deal.profit,
                  ClosedEv.notifyWin t exit_deal.profit,
                  ClosedEv.procErrorAlert t], ?_, by simp, rfl⟩
                simp only [processClosedTicket, hfv, processWithDeals, hf0, hf1,
                  finalizeTicket, hra, if_pos hp]
              · refine ⟨[ClosedEv.logTrade t
                    (((get_trade_state fd t).map TradeRec.signal).getD "N/A")
                    (((get_trade_state fd t).map TradeRec.entry_type).getD "Unknown")
                    entry_deal.price exit_deal.price exit_deal.profit,
                  ClosedEv.notifyLoss t exit_deal.profit,
                  ClosedEv.procErrorAlert t], ?_, by simp, rfl⟩
                simp only [processClosedTicket, hfv, processWithDeals, hf0, hf1,
                  finalizeTicket, hra, if_neg hp]
          obtain ⟨suffix, heq, hnc, hc0⟩ := heq
          refine ⟨?_, fun h => absurd h (by simp), fun hmem => ?_, fun _ => by rw [heq]⟩
          · rw [heq]
            exact hcount _ hc0
          · rw [heq] at hmem
            rcases List.mem_append.mp hmem with h | h
            · exact absurd h hclear
            · exact absurd h hnc
        | none =>
          have heq : processClosedTicket fd t env
              = (attemptEvents t env ++
                  [ClosedEv.logTrade t
                      (((get_trade_state fd t).map TradeRec.signal).getD "N/A")
                      (((get_trade_state fd t).map TradeRec.entry_type).getD "Unknown")
                      entry_deal.price exit_deal.price exit_deal.profit,
                   if 0 ≤ exit_deal.profit then ClosedEv.notifyWin t exit_deal.profit
                     else ClosedEv.notifyLoss t exit_deal.profit,
                   ClosedEv.clearState t],
                 clear_trade_state fd t) := by
            simp only [processClosedTicket, hfv, processWithDeals, hf0, hf1,
              finalizeTicket, hra]
          refine ⟨?_, fun h => absurd h (by simp),
            fun _ => ⟨i, ds, entry_deal, exit_deal, rfl, hf0, hf1, rfl, heq⟩,
            fun hnot => ?_⟩
          · rw [heq, List.countP_append]
            have hs : List.countP ClosedEv.isFetch
                [ClosedEv.logTrade t
                    (((get_trade_state fd t).map TradeRec.signal).getD "N/A")
                    (((get_trade_state fd t).map TradeRec.entry_type).getD "Unknown")
                    entry_deal.price exit_deal.price exit_deal.profit,
                 if 0 ≤ exit_deal.profit then ClosedEv.notifyWin t exit_deal.profit
                   else ClosedEv.notifyLoss t exit_deal.profit,
                 ClosedEv.clearState t] = 0 := by
              by_cases hp : (0:ℚ) ≤ exit_deal.profit <;>
                simp [hp, ClosedEv.isFetch, List.countP_cons]
            rw [hs]
            have := countP_attemptEvents t env
            omega
          · exfalso
            apply hnot
            rw [heq]
            exact List.mem_append.mpr (Or.inr (by simp))

/-- Deals returned on the successful fifth attempt of the closure witness:
one entry deal and one exit deal carrying the realized profit. -/
def demoDeals : List Deal :=
  [{ entry := 0, time := 10, symbol := "XAUUSD.d", volume := 1, price := 1950,
     profit := 0 },
   { entry := 1, time := 20, symbol := "XAUUSD.d", volume := 1, price := 1960,
     profit := 12 }]

/-- Environment of the closure witness: deal history is empty for attempts
0 to 3 and complete on the fifth attempt (index 4); no unexpected
exception. -/
def demoCloseEnv : CloseTicketEnv :=
  { fetch := fun i => if i = 4 then some demoDeals else none, raiseAt := none }

/-- Closed witness for the C5 theorem: in the four-failures-then-success
scenario the ticket is actually cleared, and the theorem yields the exact
final trace (one logged record with the exit deal's profit, one win
notification, then the clear) and the cleared state. -/
theorem closure_retry_and_removal_witness :
    ClosedEv.clearState 101 ∈
      (processClosedTicket (FileData.wellFormed demoOldStore) 101 demoCloseEnv).1 ∧
    (∃ i ds entry_deal exit_deal,
      firstValidAttempt demoCloseEnv.fetch = some (i, ds) ∧
      ds.find? (fun d => d.entry = 0) = some entry_deal ∧
      ds.find? (fun d => d.entry = 1) = some exit_deal ∧
      demoCloseEnv.raiseAt = none ∧
      processClosedTicket (FileData.wellFormed demoOldStore) 101 demoCloseEnv
        = (attemptEvents 101 demoCloseEnv ++
            [ClosedEv.logTrade 101
                (((get_trade_state (FileData.wellFormed demoOldStore) 101).map
                    TradeRec.signal).getD "N/A")
                (((get_trade_state (FileData.wellFormed demoOldStore) 101).map
                    TradeRec.entry_type).getD "Unknown")
                entry_deal.price exit_deal.price exit_deal.profit,
             if 0 ≤ exit_deal.profit then ClosedEv.notifyWin 101 exit_deal.profit
               else ClosedEv.notifyLoss 101 exit_deal.profit,
             ClosedEv.clearState 101],
           clear_trade_state (FileData.wellFormed demoOldStore) 101)) :=
  ⟨by decide,
   (closure_retry_and_removal (FileData.wellFormed demoOldStore) 101
      demoCloseEnv).2.2.1 (by decide)⟩

/-- Events `sync_positions_with_state` emits during one adoption batch. -/
inductive SyncEv where
  | warnNoDaily
  | modifyTp (ticket : Nat) (sl tp : ℚ)
  | saveAdopted (ticket : Nat) (rec : TradeRec)
  | alertAdopted (ticket : Nat)
  | batchError
  deriving DecidableEq, Repr

/-- Ticket an adoption event concerns, when it concerns one. -/
def SyncEv.ticketOf : SyncEv → Option Nat
  | .modifyTp t _ _ => some t
  | .saveAdopted t _ => some t
  | .alertAdopted t => some t
  | _ => none

/-- External call that raises while adopting one position, if any (the broker
modify, the state save, or the adoption alert). -/
inductive AdoptRaise where
  | duringModify
  | duringSave
  | duringAlert
  deriving DecidableEq, Repr

/-- Take-profit picked for an adopted position:
`gann_levels.get(side_key, {}).get('target_1', 0.0)` with the side chosen by
the position type. -/
def adoptionTp (g : GannResult) (pos : Position) : ℚ :=
  match g with
  | .levels buy_side sell_side =>
    if pos.ptype = 0 then buy_side.target_1 else sell_side.target_1
  | _ => 0

/-- State record written for an adopted manual position (main.py lines
71-74). -/
def adoptRec (pos : Position) (tp : ℚ) : TradeRec :=
  { entry_price := pos.price_open,
    signal := if pos.ptype = 0 then "BUY" else "SELL",
    entry_type := "Adopted/Manual", tp_level := tp, sl_level := pos.sl }

/-- Modify guard of the adoption loop (main.py line 67): the ladder rung is
available and differs from the current take-profit beyond the tolerance. -/
def wantsModify (tp posTp : ℚ) : Bool :=
  decide (0 < tp) && decide (1/100 < |tp - posTp|)

/-- Events of one position's adoption when no exception interferes. -/
def adoptEvents (g : GannResult) (pos : Position) : List SyncEv :=
  (if wantsModify (adoptionTp g pos) pos.tp then
    [SyncEv.modifyTp pos.ticket pos.sl (adoptionTp g pos)]
  else []) ++
  [SyncEv.saveAdopted pos.ticket (adoptRec pos (adoptionTp g pos)),
   SyncEv.alertAdopted pos.ticket]

/-- Loop body for one unmanaged manual position (main.py lines 62-79):
events, updated file state, and whether the body raised.  A raise at a call
skips that call's event and everything after it; the state save is the
second step and the alert the third, so a raise during the alert leaves the
record already persisted. -/
def adoptOne (g : GannResult) (fd : FileData) (pos : Position)
    (raise : Option AdoptRaise) : List SyncEv × FileData × Bool :=
  let tp := adoptionTp g pos
  if raise = some .duringModify ∧ wantsModify tp pos.tp then ([], fd, true)
  else
    let evs0 : List SyncEv :=
      if wantsModify tp pos.tp then [SyncEv.modifyTp pos.ticket pos.sl tp] else []
    if raise = some .duringSave then (evs0, fd, true)
    else
      let fd1 := save_trade_state fd pos.ticket (adoptRec pos tp)
      if raise = some .duringAlert then
        (evs0 ++ [SyncEv.saveAdopted pos.ticket (adoptRec pos tp)], fd1, true)
      else
        (evs0 ++ [SyncEv.saveAdopted pos.ticket (adoptRec pos tp),
          SyncEv.alertAdopted pos.ticket], fd1, false)

/-- The adoption `for` loop: positions processed in order, stopping at the
first raising body (the surrounding `try` covers the whole loop, so the
batch ends there for this tick). -/
def adoptLoop (g : GannResult) (raiseOf : Nat → Option AdoptRaise) :
    List Position → FileData → List SyncEv × FileData × Bool
  | [], fd => ([], fd, false)
  | pos :: rest, fd =>
    let r := adoptOne g fd pos (raiseOf pos.ticket)
    if r.2.2 then (r.1, r.2.1, true)
    else
      let rr := adoptLoop g raiseOf rest r.2.1
      (r.1 ++ rr.1, rr.2.1, rr.2.2)

/-- Embedding of `sync_positions_with_state` (main.py lines 41-81): events
and resulting file state of one tick's adoption batch.  The whole body sits
in a single try/except, so the first exception — a `ValueError` from the
Gann computation or a raise inside the loop — is logged as one batch error
and ends the batch for this tick. -/
def sync_positions_with_state (msqrt : ℚ → ℚ) (basis : String) (fd : FileData)
    (manual_positions : List Position) (daily : Option (List Candle))
    (raiseOf : Nat → Option AdoptRaise) : List SyncEv × FileData :=
  if manual_positions.isEmpty then ([], fd)
  else
    let managed := Store.keys (_load_state fd).1
    let unmanaged := manual_positions.filter (fun p => decide (p.ticket ∉ managed))
    if unmanaged.isEmpty then ([], fd)
    else
      match daily with
      | none => ([.warnNoDaily], fd)
      | some df_daily =>
        match calculate_gann_levels msqrt df_daily basis with
        | .valueError => ([.batchError], fd)
        | g =>
          let r := adoptLoop g raiseOf unmanaged fd
          (if r.2.2 then r.1 ++ [.batchError] else r.1, r.2.1)

/-- Test of whether an adoption event is a state save. -/
def SyncEv.isSave : SyncEv → Bool
  | .saveAdopted _ _ => true
  | _ => false

/-- Test of whether an adoption event is an adoption alert. -/
def SyncEv.isAlert : SyncEv → Bool
  | .alertAdopted _ => true
  | _ => false

theorem adoptOne_no_raise (g : GannResult) (fd : FileData) (pos : Position) :
    adoptOne g fd pos none
      = (adoptEvents g pos,
         save_trade_state fd pos.ticket (adoptRec pos (adoptionTp g pos)), false) := by
  by_cases hw : wantsModify (adoptionTp g pos) pos.tp <;>
    simp [adoptOne, adoptEvents, hw]

theorem adoptOne_events_ticket (g : GannResult) (fd : FileData) (pos : Position)
    (r : Option AdoptRaise) (e : SyncEv) (he : e ∈ (adoptOne g fd pos r).1) :
    e.ticketOf = some pos.ticket := by
  have hsub : (adoptOne g fd pos r).1 ⊆
      [SyncEv.modifyTp pos.ticket pos.sl (adoptionTp g pos),
       SyncEv.saveAdopted pos.ticket (adoptRec pos (adoptionTp g pos)),
       SyncEv.alertAdopted pos.ticket] := by
    intro x hx
    cases r with
    | none =>
      rw [adoptOne_no_raise] at hx
      unfold adoptEvents at hx
      by_cases hw : wantsModify (adoptionTp g pos) pos.tp <;>
        simp [hw] at hx ⊢ <;> tauto
    | some rr =>
      cases rr <;>
        by_cases hw : wantsModify (adoptionTp g pos) pos.tp <;>
        simp [adoptOne, hw] at hx ⊢ <;> tauto
  have hmem := hsub he
  simp only [List.mem_cons, List.not_mem_nil, or_false] at hmem
  rcases hmem with rfl | rfl | rfl <;> rfl

theorem adoptEvents_ticket (g : GannResult) (pos : Position) (e : SyncEv)
    (he : e ∈ adoptEvents g pos) : e.ticketOf = some pos.ticket := by
  unfold adoptEvents at he
  by_cases hw : wantsModify (adoptionTp g pos) pos.tp
  · simp [hw] at he
    rcases he with rfl | rfl | rfl <;> rfl
  · simp [hw] at he
    rcases he with rfl | rfl <;> rfl

theorem adoptLoop_no_raise (g : GannResult) (raiseOf : Nat → Option AdoptRaise)
    (l : List Position) (fd : FileData) (h : ∀ p ∈ l, raiseOf p.ticket = none) :
    adoptLoop g raiseOf l fd
      = ((l.map (adoptEvents g)).flatten,
         l.foldl (fun fd2 p =>
           save_trade_state fd2 p.ticket (adoptRec p (adoptionTp g p))) fd,
         false) := by
  induction l generalizing fd with
  | nil => rfl
  | cons pos rest ih =>
    have hp : raiseOf pos.ticket = none := h pos (by simp)
    have hrest : ∀ p ∈ rest, raiseOf p.ticket = none :=
      fun p hp2 => h p (List.mem_cons_of_mem _ hp2)
    simp only [adoptLoop, hp, adoptOne_no_raise, if_neg (by simp : ¬false = true)]
    rw [ih _ hrest]
    simp [List.flatten_cons]

theorem adoptLoop_events_tickets (g : GannResult) (raiseOf : Nat → Option AdoptRaise)
    (l : List Position) (fd : FileData) (e : SyncEv)
    (he : e ∈ (adoptLoop g raiseOf l fd).1) :
    ∃ p ∈ l, e.ticketOf = some p.ticket := by
  induction l generalizing fd with
  | nil => cases he
  | cons pos rest ih =>
    simp only [adoptLoop] at he
    by_cases hr : (adoptOne g fd pos (raiseOf pos.ticket)).2.2 = true
    · rw [if_pos hr] at he
      exact ⟨pos, by simp, adoptOne_events_ticket g fd pos _ e he⟩
    · rw [if_neg hr] at he
      rcases List.mem_append.mp he with h | h
      · exact ⟨pos, by simp, adoptOne_events_ticket g fd pos _ e h⟩
      · obtain ⟨p, hp, ht⟩ := ih _ h
        exact ⟨p, List.mem_cons_of_mem _ hp, ht⟩

theorem filter_adoptEvents (g : GannResult) (l : List Position) (pos : Position)
    (hmem : pos ∈ l) (hnodup : (l.map Position.ticket).Nodup) :
    ((l.map (adoptEvents g)).flatten).filter
        (fun e => e.ticketOf == some pos.ticket) = adoptEvents g pos := by
  induction l with
  | nil => cases hmem
  | cons q rest ih =>
    rw [List.map_cons, List.flatten_cons, List.filter_append]
    simp only [List.map_cons, List.nodup_cons] at hnodup
    rcases List.mem_cons.mp hmem with rfl | hmem2
    · have h1 : (adoptEvents g pos).filter
          (fun e => e.ticketOf == some pos.ticket) = adoptEvents g pos :=
        List.filter_eq_self.mpr (fun e he => by
          rw [adoptEvents_ticket g pos e he]
          simp)
      have h2 : ((rest.map (adoptEvents g)).flatten).filter
          (fun e => e.ticketOf == some pos.ticket) = [] := by
        rw [List.filter_eq_nil_iff]
        intro e he
        rw [List.mem_flatten] at he
        obtain ⟨evl, hevl, hee⟩ := he
        obtain ⟨q2, hq2, rfl⟩ := List.mem_map.mp hevl
        rw [adoptEvents_ticket g q2 e hee]
        simp only [beq_iff_eq, Option.some.injEq]
        exact fun hc => hnodup.1 (hc ▸ List.mem_map_of_mem Position.ticket hq2)
      rw [h1, h2, List.append_nil]
    · have hqt : q.ticket ≠ pos.ticket :=
        fun hc => hnodup.1 (hc ▸ List.mem_map_of_mem Position.ticket hmem2)
      have h1 : (adoptEvents g q).filter
          (fun e => e.ticketOf == some pos.ticket) = [] := by
        rw [List.filter_eq_nil_iff]
        intro e he
        rw [adoptEvents_ticket g q e he]
        simp [hqt]
      rw [h1, List.nil_append]
      exact ih hmem2 hnodup.2

theorem mem_keys_dictSet_self (m : Store) (k : Nat) (v : TradeRec) :
    k ∈ Store.keys (dictSet m k v) := by
  induction m with
  | nil => simp [dictSet, Store.keys]
  | cons p ps ih =>
    by_cases h : p.1 = k
    · simp [dictSet, h, Store.keys]
    · simp only [dictSet, if_neg h, Store.keys, List.map_cons, List.mem_cons]
      exact Or.inr ih

theorem mem_keys_dictSet_mono (m : Store) (k k2 : Nat) (v : TradeRec)
    (h : k ∈ Store.keys m) : k ∈ Store.keys (dictSet m k2 v) := by
  induction m with
  | nil => cases h
  | cons p ps ih =>
    simp only [Store.keys, List.map_cons, List.mem_cons] at h
    by_cases hk : p.1 = k2
    · simp only [dictSet, if_pos hk, Store.keys, List.map_cons, List.mem_cons]
      rcases h with rfl | h2
      · exact Or.inl hk
      · exact Or.inr h2
    · simp only [dictSet, if_neg hk, Store.keys, List.map_cons, List.mem_cons]
      rcases h with rfl | h2
      · exact Or.inl rfl
      · exact Or.inr (ih h2)

theorem mem_keys_fold_preserve (g : GannResult) (l : List Position) (fd : FileData)
    (k : Nat) (h : k ∈ Store.keys (_load_state fd).1) :
    k ∈ Store.keys (_load_state (l.foldl (fun fd2 p =>
      save_trade_state fd2 p.ticket (adoptRec p (adoptionTp g p))) fd)).1 := by
  induction l generalizing fd with
  | nil => exact h
  | cons q rest ih =>
    exact ih _ (mem_keys_dictSet_mono _ _ _ _ h)

theorem mem_keys_fold_of_mem (g : GannResult) (l : List Position) (fd : FileData)
    (pos : Position) (hmem : pos ∈ l) :
    pos.ticket ∈ Store.keys (_load_state (l.foldl (fun fd2 p =>
      save_trade_state fd2 p.ticket (adoptRec p (adoptionTp g p))) fd)).1 := by
  induction l generalizing fd with
  | nil => cases hmem
  | cons q rest ih =>
    rcases List.mem_cons.mp hmem with rfl | h2
    · exact mem_keys_fold_preserve g rest _ _ (mem_keys_dictSet_self _ _ _)
    · exact ih _ h2

theorem adoptLoop_filter_managed (g : GannResult)
    (raiseOf : Nat → Option AdoptRaise) (fd : FileData) (manual : List Position)
    (k : Nat) (hk : k ∈ Store.keys (_load_state fd).1) (e : SyncEv)
    (he : e ∈ (adoptLoop g raiseOf
      (manual.filter (fun p => decide (p.ticket ∉ Store.keys (_load_state fd).1)))
      fd).1) :
    (e.ticketOf == some k) = false := by
  obtain ⟨p, hp, ht⟩ := adoptLoop_events_tickets _ _ _ _ _ he
  have hpk := (List.mem_filter.mp hp).2
  simp only [decide_eq_true_eq] at hpk
  rw [ht]
  simp only [beq_eq_false_iff_ne, ne_eq, Option.some.injEq]
  exact fun hc => hpk (hc ▸ hk)

theorem filter_syncBranch (g : GannResult) (raiseOf : Nat → Option AdoptRaise)
    (fd : FileData) (manual : List Position) (k : Nat)
    (hk : k ∈ Store.keys (_load_state fd).1) :
    (if (adoptLoop g raiseOf
          (manual.filter (fun p => decide (p.ticket ∉ Store.keys (_load_state fd).1)))
          fd).2.2 = true then
        (adoptLoop g raiseOf
          (manual.filter (fun p => decide (p.ticket ∉ Store.keys (_load_state fd).1)))
          fd).1 ++ [SyncEv.batchError]
      else
        (adoptLoop g raiseOf
          (manual.filter (fun p => decide (p.ticket ∉ Store.keys (_load_state fd).1)))
          fd).1).filter (fun e => e.ticketOf == some k) = [] := by
  apply List.filter_eq_nil_iff.mpr
  intro e he
  by_cases hr : (adoptLoop g raiseOf
      (manual.filter (fun p => decide (p.ticket ∉ Store.keys (_load_state fd).1)))
      fd).2.2 = true
  · rw [if_pos hr] at he
    rcases List.mem_append.mp he with h | h
    · simp [adoptLoop_filter_managed g raiseOf fd manual k hk e h]
    · simp at h
      subst h
      simp [SyncEv.ticketOf]
  · rw [if_neg hr] at he
    simp [adoptLoop_filter_managed g raiseOf fd manual k hk e he]

/-- Adoption never touches a ticket that the store already manages: every
event of a tick's adoption batch concerns some still-unmanaged ticket, so
filtering the batch for an already-stored ticket yields nothing. -/
theorem sync_no_events_for_managed (msqrt : ℚ → ℚ) (basis : String)
    (fd : FileData) (manual : List Position) (daily : Option (List Candle))
    (raiseOf : Nat → Option AdoptRaise) (k : Nat)
    (hk : k ∈ Store.keys (_load_state fd).1) :
    (sync_positions_with_state msqrt basis fd manual daily raiseOf).1.filter
      (fun e => e.ticketOf == some k) = [] := by
  by_cases h1 : manual.isEmpty = true
  · simp only [sync_positions_with_state, h1, if_true]
    rfl
  · by_cases h2 : (manual.filter
        (fun p => decide (p.ticket ∉ Store.keys (_load_state fd).1))).isEmpty = true
    · simp only [sync_positions_with_state, h1, h2, if_true, if_false]
      rfl
    · cases daily with
      | none =>
        simp only [sync_positions_with_state, h1, h2, if_false]
        rfl
      | some df =>
        cases hg : calculate_gann_levels msqrt df basis with
        | valueError =>
          simp only [sync_positions_with_state, h1, h2, hg, if_false]
          rfl
        | emptyDict =>
          simp only [sync_positions_with_state, h1, h2, hg, if_false]
          exact filter_syncBranch _ raiseOf fd manual k hk
        | levels b s =>
          simp only [sync_positions_with_state, h1, h2, hg, if_false]
          exact filter_syncBranch _ raiseOf fd manual k hk

/-- C6: one reconciliation tick adopts a manual position absent from the
state store exactly once: with the Gann levels available, the batch's
events for that ticket are precisely an optional take-profit modify to the
ladder's first rung followed by one `Adopted/Manual` state record and one
adoption alert; the modify appears exactly when the rung is positive and
differs from the position's current take-profit by more than the 0.01
tolerance; afterwards the ticket is in the store, and a second tick emits
no adoption event for it at all. -/
theorem adoption_once (msqrt : ℚ → ℚ) (basis : String) (fd : FileData)
    (manual : List Position) (daily : List Candle)
    (raiseOf : Nat → Option AdoptRaise) (pos : Position) (b s : GannSide)
    (hm : pos ∈ manual)
    (hnew : pos.ticket ∉ Store.keys (_load_state fd).1)
    (hnodup : (manual.map Position.ticket).Nodup)
    (hg : calculate_gann_levels msqrt daily basis = .levels b s)
    (hraise : ∀ t, raiseOf t = none) :
    ((sync_positions_with_state msqrt basis fd manual (some daily) raiseOf).1.filter
        (fun e => e.ticketOf == some pos.ticket))
      = adoptEvents (.levels b s) pos ∧
    (adoptEvents (.levels b s) pos).countP SyncEv.isSave = 1 ∧
    (adoptEvents (.levels b s) pos).countP SyncEv.isAlert = 1 ∧
    SyncEv.saveAdopted pos.ticket
        (adoptRec pos (adoptionTp (.levels b s) pos)) ∈ adoptEvents (.levels b s) pos ∧
    (SyncEv.modifyTp pos.ticket pos.sl (adoptionTp (.levels b s) pos)
        ∈ adoptEvents (.levels b s) pos
      ↔ wantsModify (adoptionTp (.levels b s) pos) pos.tp = true) ∧
    pos.ticket ∈ Store.keys (_load_state
      (sync_positions_with_state msqrt basis fd manual (some daily) raiseOf).2).1 ∧
    ((sync_positions_with_state msqrt basis
        (sync_positions_with_state msqrt basis fd manual (some daily) raiseOf).2
        manual (some daily) raiseOf).1.filter
        (fun e => e.ticketOf == some pos.ticket)) = [] := by
  have hmanual_ne : ¬ manual.isEmpty = true := by
    rw [List.isEmpty_iff]
    exact List.ne_nil_of_mem hm
  have hpos_unmanaged : pos ∈ manual.filter
      (fun p => decide (p.ticket ∉ Store.keys (_load_state fd).1)) :=
    List.mem_filter.mpr ⟨hm, by simp [hnew]⟩
  have hunmanaged_ne : ¬ (manual.filter
      (fun p => decide (p.ticket ∉ Store.keys (_load_state fd).1))).isEmpty = true := by
    rw [List.isEmpty_iff]
    exact List.ne_nil_of_mem hpos_unmanaged
  have hunmanaged_nodup : ((manual.filter
      (fun p => decide (p.ticket ∉ Store.keys (_load_state fd).1))).map
        Position.ticket).Nodup :=
    ((List.filter_sublist manual).map Position.ticket).nodup hnodup
  have hloop := adoptLoop_no_raise (GannResult.levels b s) raiseOf
    (manual.filter (fun p => decide (p.ticket ∉ Store.keys (_load_state fd).1))) fd
    (fun p _ => hraise p.ticket)
  have hsync : sync_positions_with_state msqrt basis fd manual (some daily) raiseOf
      = (((manual.filter
            (fun p => decide (p.ticket ∉ Store.keys (_load_state fd).1))).map
              (adoptEvents (GannResult.levels b s))).flatten,
         (manual.filter
            (fun p => decide (p.ticket ∉ Store.keys (_load_state fd).1))).foldl
           (fun fd2 p =>
             save_trade_state fd2 p.ticket (adoptRec p (adoptionTp
               (GannResult.levels b s) p))) fd) := by
    simp only [sync_positions_with_state, if_neg hmanual_ne, if_neg hunmanaged_ne, hg,
      hloop]
    simp
  refine ⟨?_, ?_, ?_, ?_, ?_, ?_, ?_⟩
  · rw [hsync]
    exact filter_adoptEvents _ _ _ hpos_unmanaged hunmanaged_nodup
  · by_cases hw : wantsModify (adoptionTp (GannResult.levels b s) pos) pos.tp <;>
      simp [adoptEvents, hw, SyncEv.isSave, List.countP_cons]
  · by_cases hw : wantsModify (adoptionTp (GannResult.levels b s) pos) pos.tp <;>
      simp [adoptEvents, hw, SyncEv.isAlert, List.countP_cons]
  · by_cases hw : wantsModify (adoptionTp (GannResult.levels b s) pos) pos.tp <;>
      simp [adoptEvents, hw]
  · by_cases hw : wantsModify (adoptionTp (GannResult.levels b s) pos) pos.tp <;>
      simp [adoptEvents, hw]
  · rw [hsync]
    exact mem_keys_fold_of_mem _ _ _ _ hpos_unmanaged
  · apply sync_no_events_for_managed
    rw [hsync]
    exact mem_keys_fold_of_mem _ _ _ _ hpos_unmanaged

/-- Manual position adopted in the C6 witness: untagged, with no take-profit
set yet. -/
def demoManualPos : Position :=
  { ticket := 777, ptype := 0, price_open := 1975, sl := 0, tp := 0,
    volume := 1/100, symbol := "XAUUSD.d" }

/-- Buy side of the Gann levels computed from `demoDaily` under basis
"Previous Days Close" with the demo square root. -/
def demoBuySide : GannSide :=
  { entry := ((2:ℚ) + 1/8)^2, stop_loss := ((2:ℚ) - 1/16)^2,
    targets := (gann_fractions.drop 2).map (fun f => ((2:ℚ) + f)^2) }

/-- Sell side of the same Gann levels. -/
def demoSellSide : GannSide :=
  { entry := ((2:ℚ) - 1/8)^2, stop_loss := ((2:ℚ) + 1/16)^2,
    targets := (gann_fractions.drop 2).map (fun f => ((2:ℚ) - f)^2) }

/-- Closed witness for the C6 theorem: one tick starting from an empty store
adopts the manual position with exactly one save and leaves its ticket
managed. -/
theorem adoption_once_witness :
    ((sync_positions_with_state msqrtDemo "Previous Days Close"
        (FileData.wellFormed []) [demoManualPos] (some demoDaily)
        (fun _ => none)).1.filter
        (fun e => e.ticketOf == some demoManualPos.ticket))
      = adoptEvents (.levels demoBuySide demoSellSide) demoManualPos ∧
    (adoptEvents (.levels demoBuySide demoSellSide) demoManualPos).countP
        SyncEv.isSave = 1 ∧
    demoManualPos.ticket ∈ Store.keys (_load_state
      (sync_positions_with_state msqrtDemo "Previous Days Close"
        (FileData.wellFormed []) [demoManualPos] (some demoDaily)
        (fun _ => none)).2).1 := by
  have h := adoption_once msqrtDemo "Previous Days Close" (FileData.wellFormed [])
    [demoManualPos] demoDaily (fun _ => none) demoManualPos demoBuySide demoSellSide
    (List.mem_singleton.mpr rfl) (List.not_mem_nil _) (by simp) rfl (fun _ => rfl)
  exact ⟨h.1, h.2.1, h.2.2.2.2.2.1⟩

theorem fetch0_mem_attemptEvents (t : Nat) (env : CloseTicketEnv) :
    ClosedEv.fetchHistory t 0 ∈ attemptEvents t env := by
  unfold attemptEvents
  cases hfv : firstValidAttempt env.fetch with
  | none =>
    apply List.mem_flatten.mpr
    exact ⟨[ClosedEv.fetchHistory t 0, ClosedEv.sleepRetry],
      List.mem_map_of_mem _ (List.mem_range.mpr (by norm_num)), by simp⟩
  | some p =>
    obtain ⟨i, ds⟩ := p
    cases i with
    | zero => simp
    | succ n =>
      apply List.mem_append_left
      apply List.mem_flatten.mpr
      exact ⟨[ClosedEv.fetchHistory t 0, ClosedEv.sleepRetry],
        List.mem_map_of_mem _ (List.mem_range.mpr (Nat.succ_pos n)), by simp⟩

theorem processClosedTicket_fetch0 (fd : FileData) (t : Nat) (env : CloseTicketEnv) :
    ClosedEv.fetchHistory t 0 ∈ (processClosedTicket fd t env).1 := by
  unfold processClosedTicket
  cases hfv : firstValidAttempt env.fetch with
  | none => exact List.mem_append_left _ (fetch0_mem_attemptEvents t env)
  | some p =>
    obtain ⟨i, ds⟩ := p
    exact List.mem_append_left _ (fetch0_mem_attemptEvents t env)

theorem closedFold_preserve (envOf : Nat → CloseTicketEnv) (l : List Nat)
    (acc : List ClosedEv × FileData) (x : ClosedEv) (hx : x ∈ acc.1) :
    x ∈ (l.foldl (fun acc2 t2 =>
      let r := processClosedTicket acc2.2 t2 (envOf t2)
      (acc2.1 ++ r.1, r.2)) acc).1 := by
  induction l generalizing acc with
  | nil => exact hx
  | cons t2 rest ih => exact ih _ (List.mem_append_left _ hx)

theorem closedFold_mem (envOf : Nat → CloseTicketEnv) (l : List Nat)
    (acc : List ClosedEv × FileData) (t : Nat) (ht : t ∈ l) :
    ClosedEv.fetchHistory t 0 ∈ (l.foldl (fun acc2 t2 =>
      let r := processClosedTicket acc2.2 t2 (envOf t2)
      (acc2.1 ++ r.1, r.2)) acc).1 := by
  induction l generalizing acc with
  | nil => cases ht
  | cons t2 rest ih =>
    rcases List.mem_cons.mp ht with rfl | h2
    · exact closedFold_preserve envOf rest _ _
        (List.mem_append_right _ (processClosedTicket_fetch0 acc.2 t (envOf t)))
    · exact ih _ h2

theorem adoptLoop_abort (g : GannResult) (raiseOf : Nat → Option AdoptRaise)
    (l1 : List Position) (p : Position) (l2 : List Position) (fd : FileData)
    (h1 : ∀ q ∈ l1, raiseOf q.ticket = none)
    (hp : raiseOf p.ticket = some AdoptRaise.duringSave) :
    adoptLoop g raiseOf (l1 ++ p :: l2) fd
      = ((l1.map (adoptEvents g)).flatten ++
          (if wantsModify (adoptionTp g p) p.tp = true then
            [SyncEv.modifyTp p.ticket p.sl (adoptionTp g p)]
          else []),
         l1.foldl (fun fd2 q =>
           save_trade_state fd2 q.ticket (adoptRec q (adoptionTp g q))) fd,
         true) := by
  induction l1 generalizing fd with
  | nil =>
    simp only [List.nil_append, adoptLoop, hp]
    have hone : adoptOne g fd p (some AdoptRaise.duringSave)
        = ((if wantsModify (adoptionTp g p) p.tp = true then
            [SyncEv.modifyTp p.ticket p.sl (adoptionTp g p)]
          else []), fd, true) := by
      by_cases hw : wantsModify (adoptionTp g p) p.tp <;> simp [adoptOne, hw]
    rw [hone]
    simp
  | cons q rest ih =>
    have hq : raiseOf q.ticket = none := h1 q (by simp)
    have hrest : ∀ r2 ∈ rest, raiseOf r2.ticket = none :=
      fun r2 hr2 => h1 r2 (List.mem_cons_of_mem _ hr2)
    simp only [List.cons_append, adoptLoop, hq, adoptOne_no_raise,
      if_neg (by simp : ¬false = true), List.append_eq]
    rw [ih _ hrest]
    simp [List.flatten_cons, List.append_assoc]

/-- First manual position of the C7 example. -/
def demoPosA : Position :=
  { ticket := 1, ptype := 0, price_open := 10, sl := 0, tp := 0, volume := 1,
    symbol := "XAUUSD.d" }

/-- Second manual position of the C7 example. -/
def demoPosB : Position :=
  { ticket := 2, ptype := 1, price_open := 11, sl := 0, tp := 0, volume := 1,
    symbol := "XAUUSD.d" }

/-- Raise oracle of the C7 example: saving the first position's record
raises; everything else is clean. -/
def demoRaiseA : Nat → Option AdoptRaise :=
  fun t => if t = 1 then some AdoptRaise.duringSave else none

/-- Daily candles whose reference close is 0, making the Gann computation
return the empty dict in the C7 example. -/
def demoDailyZero : List Candle := [⟨0, 1, 1, 1, 0⟩, ⟨1, 1, 1, 1, 1⟩]

/-- C7 (counterexample): with two manual positions to adopt in one tick and
an exception raised while saving the first one, the batch handler catches
and logs a single batch error, but the second position of the same batch is
not processed in that tick: the trace holds no event for its ticket and it
stays unmanaged. -/
theorem adoption_batch_aborts_cex :
    (sync_positions_with_state msqrtDemo "Previous Days Close"
        (FileData.wellFormed []) [demoPosA, demoPosB] (some demoDailyZero)
        demoRaiseA).1 = [SyncEv.batchError] ∧
    ((sync_positions_with_state msqrtDemo "Previous Days Close"
        (FileData.wellFormed []) [demoPosA, demoPosB] (some demoDailyZero)
        demoRaiseA).1.filter
        (fun e => e.ticketOf == some demoPosB.ticket)) = [] ∧
    demoPosB ∈ [demoPosA, demoPosB] ∧
    demoPosB.ticket ∉ Store.keys (_load_state (FileData.wellFormed [])).1 ∧
    demoPosB.ticket ∉ Store.keys (_load_state
      (sync_positions_with_state msqrtDemo "Previous Days Close"
        (FileData.wellFormed []) [demoPosA, demoPosB] (some demoDailyZero)
        demoRaiseA).2).1 := by
  have hw0 : wantsModify 0 0 = false := by
    norm_num [wantsModify]
  have hsync : sync_positions_with_state msqrtDemo "Previous Days Close"
      (FileData.wellFormed []) [demoPosA, demoPosB] (some demoDailyZero) demoRaiseA
      = ([SyncEv.batchError], FileData.wellFormed []) := by
    simp [sync_positions_with_state, Store.keys, _load_state, adoptLoop, adoptOne,
      adoptionTp, hw0, demoRaiseA, demoPosA, demoPosB, calculate_gann_levels,
      demoDailyZero, msqrtDemo]
  rw [hsync]
  refine ⟨rfl, rfl, by simp, by simp [Store.keys, _load_state], by
    simp [Store.keys, _load_state]⟩

/-- C7 (amended): exception containment differs between the two batches.  In
the closure-detection batch the per-ticket handler really isolates tickets:
every closed ticket is processed (its deal-history query happens) in the
same tick no matter which tickets' processing raises.  In the adoption
batch the lone handler wraps the whole loop, so an exception while
processing one position is caught and the batch flagged (one batch error is
logged, as the counterexample shows), but the positions after it produce no
events that tick — they are only retried on the next tick, when they are
still unmanaged. -/
theorem error_containment_amended (fd : FileData) (openTickets : List Nat)
    (envOf : Nat → CloseTicketEnv) (t : Nat)
    (ht : t ∈ (Store.keys (_load_state fd).1).filter
      (fun t2 => decide (t2 ∉ openTickets)))
    (g : GannResult) (raiseOf : Nat → Option AdoptRaise)
    (l1 : List Position) (p : Position) (l2 : List Position) (fd2 : FileData)
    (h1 : ∀ q ∈ l1, raiseOf q.ticket = none)
    (hp : raiseOf p.ticket = some AdoptRaise.duringSave) :
    ClosedEv.fetchHistory t 0 ∈ (check_for_closed_trades fd openTickets envOf).1 ∧
    (adoptLoop g raiseOf (l1 ++ p :: l2) fd2).2.2 = true ∧
    (adoptLoop g raiseOf (l1 ++ p :: l2) fd2).1
      = (l1.map (adoptEvents g)).flatten ++
        (if wantsModify (adoptionTp g p) p.tp = true then
          [SyncEv.modifyTp p.ticket p.sl (adoptionTp g p)]
        else []) := by
  have habort := adoptLoop_abort g raiseOf l1 p l2 fd2 h1 hp
  refine ⟨closedFold_mem envOf _ _ t ht, ?_, ?_⟩
  · rw [habort]
  · rw [habort]

/-- Closed witness for the amended C7 theorem, at the concrete batch of the
counterexample: the closed ticket 101 still gets its deal-history query in
the closure batch, and the aborted adoption batch's trace is exactly what
the theorem states. -/
theorem error_containment_amended_witness :
    ClosedEv.fetchHistory 101 0 ∈
      (check_for_closed_trades (FileData.wellFormed demoOldStore) []
        (fun _ => demoCloseEnv)).1 ∧
    (adoptLoop GannResult.emptyDict demoRaiseA ([] ++ demoPosA :: [demoPosB])
        (FileData.wellFormed [])).2.2 = true ∧
    (adoptLoop GannResult.emptyDict demoRaiseA ([] ++ demoPosA :: [demoPosB])
        (FileData.wellFormed [])).1
      = (([] : List Position).map (adoptEvents GannResult.emptyDict)).flatten ++
        (if wantsModify (adoptionTp GannResult.emptyDict demoPosA) demoPosA.tp
              = true then
          [SyncEv.modifyTp demoPosA.ticket demoPosA.sl
            (adoptionTp GannResult.emptyDict demoPosA)]
        else []) :=
  error_containment_amended (FileData.wellFormed demoOldStore) []
    (fun _ => demoCloseEnv) 101 (by decide) GannResult.emptyDict demoRaiseA []
    demoPosA [demoPosB] (FileData.wellFormed [])
    (fun q hq => absurd hq (List.not_mem_nil q)) rfl

end GoldieBot
